import Mathlib

set_option maxHeartbeats 1000000

namespace MohoMCP

/-- A single-quote character as a string, used inside protocol error messages. -/
def sq : String := String.singleton (Char.ofNat 39)

/-- Lua/JSON values as used by the MohoMCP protocol layer: nil, booleans,
numbers, strings, and tables with an array part and a string-keyed hash part.
(Lua tables mix both parts; the code under verification only ever uses integer
iteration on the array part and string keys on the hash part.) -/
inductive LuaVal where
  | nil
  | boolean (b : Bool)
  | num (n : Int)
  | str (s : String)
  | table (arr : List LuaVal) (hash : List (String × LuaVal))

/-- The `value == nil` test of Lua. -/
def LuaVal.isNil : LuaVal → Bool
  | .nil => true
  | _ => false

/-- Lua `type()` of a value, as a string. -/
def luaType : LuaVal → String
  | .nil => "nil"
  | .boolean _ => "boolean"
  | .num _ => "number"
  | .str _ => "string"
  | .table _ _ => "table"

/-- Look a string key up in the hash part of a table; absent keys give nil,
mirroring Lua table indexing. -/
def hashGet : List (String × LuaVal) → String → LuaVal
  | [], _ => .nil
  | (k, v) :: rest, key => if k = key then v else hashGet rest key

/-- Index a value with a string key (`t.key` in Lua); non-tables give nil.
All uses in the embedded code are guarded so that the value is a table. -/
def hashGetVal (v : LuaVal) (key : String) : LuaVal :=
  match v with
  | .table _ h => hashGet h key
  | _ => .nil

/-- Lua truthiness: everything except nil and false is truthy. -/
def luaTruthy : LuaVal → Bool
  | .nil => false
  | .boolean b => b
  | _ => true

/-- Lua `a or b`: `a` when truthy, otherwise `b`. -/
def luaOr (a b : LuaVal) : LuaVal := if luaTruthy a then a else b

/-- The empty Lua table `{}`. -/
def emptyTable : LuaVal := .table [] []

/-- Allow-list of tool method names, from validator.lua. -/
def allowedMethods : List String :=
  [ "document.getInfo", "document.getLayers", "layer.getProperties",
    "layer.getChildren", "layer.getBones", "bone.getProperties",
    "animation.getKeyframes", "animation.getFrameState", "mesh.getPoints",
    "mesh.getShapes",
    "bone.setTransform", "bone.selectBone", "layer.setTransform",
    "layer.setVisibility", "layer.setOpacity", "layer.setName",
    "layer.selectLayer", "animation.setKeyframe", "animation.deleteKeyframe",
    "animation.setInterpolation", "document.setFrame",
    "document.screenshot",
    "batch.execute" ]

/-- Parameter schemas for each method, from validator.lua: a list of
(field name, required primitive type) pairs per method. -/
def paramSchemas : List (String × List (String × String)) :=
  [ ("document.getInfo", []),
    ("document.getLayers", []),
    ("layer.getProperties", [("layerId", "number")]),
    ("layer.getChildren", [("layerId", "number")]),
    ("layer.getBones", [("layerId", "number")]),
    ("bone.getProperties", [("layerId", "number"), ("boneId", "number")]),
    ("animation.getKeyframes", [("layerId", "number"), ("channel", "string")]),
    ("animation.getFrameState", [("layerId", "number"), ("frame", "number")]),
    ("mesh.getPoints", [("layerId", "number")]),
    ("mesh.getShapes", [("layerId", "number")]),
    ("bone.setTransform",
      [("layerId", "number"), ("boneId", "number"), ("frame", "number")]),
    ("bone.selectBone", [("layerId", "number"), ("boneId", "number")]),
    ("layer.setTransform", [("layerId", "number"), ("frame", "number")]),
    ("layer.setVisibility", [("layerId", "number"), ("visible", "boolean")]),
    ("layer.setOpacity",
      [("layerId", "number"), ("frame", "number"), ("opacity", "number")]),
    ("layer.setName", [("layerId", "number"), ("name", "string")]),
    ("layer.selectLayer", [("layerId", "number")]),
    ("animation.setKeyframe",
      [("layerId", "number"), ("channel", "string"), ("frame", "number")]),
    ("animation.deleteKeyframe",
      [("layerId", "number"), ("channel", "string"), ("frame", "number")]),
    ("animation.setInterpolation",
      [("layerId", "number"), ("channel", "string"), ("frame", "number"),
       ("mode", "string")]),
    ("document.setFrame", [("frame", "number")]),
    ("document.screenshot", []),
    ("batch.execute", [("operations", "table")]) ]

/-- validator.isAllowed: true only for names in the static allow-list
(exact, case-sensitive lookup). -/
def validator.isAllowed (method : String) : Bool :=
  allowedMethods.contains method

/-- Schema lookup for a method (`paramSchemas[method]` in the source). -/
def lookupSchema (method : String) : Option (List (String × String)) :=
  (paramSchemas.find? (fun p => p.1 = method)).map (fun p => p.2)

/-- The per-field loop of validator.validateParams: for each required field in
schema order, check presence first, then the runtime type; the first violation
is reported and stops the scan. -/
def validateFields : List (String × String) → List (String × LuaVal) →
    Bool × Option String
  | [], _ => (true, none)
  | (name, ty) :: rest, h =>
    if (hashGet h name).isNil then
      (false, some ("Missing required parameter: " ++ name))
    else if luaType (hashGet h name) ≠ ty then
      (false, some ("Invalid parameter type for " ++ sq ++ name ++ sq ++
        ": expected " ++ ty ++ ", got " ++ luaType (hashGet h name)))
    else validateFields rest h

/-- validator.validateParams from validator.lua: unknown methods fail; methods
with an empty schema always pass; otherwise params must be a table and every
required field must be present with the declared primitive type. -/
def validator.validateParams (method : String) (params : LuaVal) :
    Bool × Option String :=
  match lookupSchema method with
  | none => (false, some ("Unknown method: " ++ method))
  | some schema =>
    if schema.isEmpty then (true, none)
    else
      match params with
      | .table _ h => validateFields schema h
      | _ => (false, some "Missing params: expected a table of parameters")

/-- Outcome of calling a tool handler under `pcall(handler, moho, params)`:
either the handler raised (pcall returns false with the error message), or it
returned a (result, err) pair, where a string err with a nil result signals a
domain failure. -/
inductive HandlerResult where
  | thrown (msg : String)
  | ret (result : LuaVal) (err : Option String)

/-- A registered tool handler; the `moho` context argument is opaque to the
RPC layer and is not modelled. -/
abbrev Handler := LuaVal → HandlerResult

/-- The two-method denylist applied inside a batch, from batch.lua. -/
def disallowedInBatch (method : String) : Bool :=
  method = "document.screenshot" || method = "batch.execute"

/-- Structural check on a batch operation: it must be a table whose `method`
field is a string; returns that string when the check passes. -/
def getStringMethod : LuaVal → Option String
  | .table _ h =>
    match hashGet h "method" with
    | .str m => some m
    | _ => none
  | _ => none

/-- The parameters an operation's handler would be called with:
`op.params or \x7b\x7d` from batch.lua. -/
def opParamsOf (op : LuaVal) : LuaVal := luaOr (hashGetVal op "params") emptyTable

/-- One entry of the batch result array. Failure entries carry an
(error code, message) pair and a nil result; success entries carry the
handler result and no error. -/
structure BatchEntry where
  success : Bool
  index : Nat
  result : LuaVal
  error : Option (Int × String)

/-- The running state of the batch loop: the three counters, the stop flag and
the (1-based) indices of operations whose handler was actually invoked. -/
structure LoopState where
  succeeded : Nat
  failed : Nat
  executed : Nat
  stoppedEarly : Bool
  calls : List Nat

/-- The summary object returned by batch.execute. -/
structure BatchSummary where
  total : Nat
  executed : Nat
  succeeded : Nat
  failed : Nat
  stoppedEarly : Bool

/-- The value returned by a successful batch.execute call. -/
structure BatchOutput where
  results : List BatchEntry
  summary : BatchSummary

/-- The synthetic entry recorded for an operation skipped because a prior
operation failed with stopOnError set: error code -32000 and the fixed
message, from batch.lua. -/
def skipEntry (i : Nat) : BatchEntry :=
  ⟨false, i, .nil, some (-32000, "Skipped (stopOnError)")⟩

/-- Processing of one (non-skipped) batch operation, from the loop body of
batch.execute: structural check, denylist, allow-list, parameter validation,
handler lookup, then the pcall-protected handler execution. Returns the
result entry, whether the operation succeeded, and whether the handler was
actually invoked. -/
def processOp (gh : String → Option Handler) (i : Nat) (op : LuaVal) :
    BatchEntry × Bool × Bool :=
  match getStringMethod op with
  | none =>
    (⟨false, i, .nil, some (-32600, "Invalid operation at index " ++
      toString i ++ ": must have a string " ++ sq ++ "method" ++ sq)⟩,
     false, false)
  | some method =>
    if disallowedInBatch method then
      (⟨false, i, .nil,
        some (-32601, "Method not allowed in batch: " ++ method)⟩, false, false)
    else if !(validator.isAllowed method) then
      (⟨false, i, .nil, some (-32601, "Method not found: " ++ method)⟩,
       false, false)
    else
      if !(validator.validateParams method (opParamsOf op)).1 then
        (⟨false, i, .nil,
          some (-32602,
            (validator.validateParams method (opParamsOf op)).2.getD
              "Invalid parameters")⟩,
         false, false)
      else
        match gh method with
        | none =>
          (⟨false, i, .nil,
            some (-32601, "No handler registered for: " ++ method)⟩,
           false, false)
        | some h =>
          match h (opParamsOf op) with
          | .thrown msg =>
            (⟨false, i, .nil, some (-32603, "Handler error: " ++ msg)⟩,
             false, true)
          | .ret r e =>
            match e with
            | some errMsg =>
              if r.isNil then
                (⟨false, i, .nil, some (-32603, errMsg)⟩, false, true)
              else (⟨true, i, r, none⟩, true, true)
            | none => (⟨true, i, r, none⟩, true, true)

/-- The counter/flag update performed after a non-skipped operation: it is
always counted as executed, exactly one of succeeded/failed is incremented,
stoppedEarly is raised when the operation failed with stopOnError set, and the
operation index is recorded when its handler was invoked. -/
def stepState (stopOnError : Bool) (i : Nat) (st : LoopState)
    (p : BatchEntry × Bool × Bool) : LoopState :=
  ⟨st.succeeded + (if p.2.1 then 1 else 0),
   st.failed + (if p.2.1 then 0 else 1),
   st.executed + 1,
   stopOnError && !p.2.1,
   st.calls ++ (if p.2.2 then [i] else [])⟩

/-- The main loop of batch.execute over the operation list, carried out with
1-based index `i` and the running LoopState. A skipped operation (stoppedEarly
already set) records the synthetic entry and leaves the state untouched; any
other operation is processed through processOp and the state stepped. -/
def batchLoop (gh : String → Option Handler) (stopOnError : Bool) :
    Nat → LoopState → List LuaVal → List BatchEntry × LoopState
  | _, st, [] => ([], st)
  | i, st, op :: rest =>
    if st.stoppedEarly then
      let r := batchLoop gh stopOnError (i + 1) st rest
      (skipEntry i :: r.1, r.2)
    else
      let r := batchLoop gh stopOnError (i + 1)
        (stepState stopOnError i st (processOp gh i op)) rest
      ((processOp gh i op).1 :: r.1, r.2)

/-- Maximum number of operations allowed in a single batch, from batch.lua. -/
def MAX_OPERATIONS : Nat := 50

/-- batch.execute from batch.lua. Besides the source's return value (a
top-level error string, or the result array plus summary), the embedding also
returns the list of operation indices whose handler was invoked, so that
theorems can speak about which handlers ran. -/
def batch.execute (gh : String → Option Handler) (params : LuaVal) :
    Except String BatchOutput × List Nat :=
  match hashGetVal params "operations" with
  | .table arr _ =>
    if arr.length = 0 then (.error "operations must be a non-empty array", [])
    else if arr.length > MAX_OPERATIONS then
      (.error ("Too many operations: " ++ toString arr.length ++ " (max " ++
        toString MAX_OPERATIONS ++ ")"), [])
    else
      (.ok ⟨(batchLoop gh (luaTruthy (hashGetVal params "stopOnError")) 1
          ⟨0, 0, 0, false, []⟩ arr).1,
        ⟨arr.length,
         (batchLoop gh (luaTruthy (hashGetVal params "stopOnError")) 1
           ⟨0, 0, 0, false, []⟩ arr).2.executed,
         (batchLoop gh (luaTruthy (hashGetVal params "stopOnError")) 1
           ⟨0, 0, 0, false, []⟩ arr).2.succeeded,
         (batchLoop gh (luaTruthy (hashGetVal params "stopOnError")) 1
           ⟨0, 0, 0, false, []⟩ arr).2.failed,
         (batchLoop gh (luaTruthy (hashGetVal params "stopOnError")) 1
           ⟨0, 0, 0, false, []⟩ arr).2.stoppedEarly⟩⟩,
       (batchLoop gh (luaTruthy (hashGetVal params "stopOnError")) 1
         ⟨0, 0, 0, false, []⟩ arr).2.calls)
  | _ => (.error "operations must be a non-empty array", [])

/-- Convenience constructor for the params table of a batch call. -/
def mkBatchParams (ops : List LuaVal) (stopOnError : Bool) : LuaVal :=
  .table [] [("operations", .table ops []), ("stopOnError", .boolean stopOnError)]

/-- Whether processing operation `op` at index `i` succeeds. -/
def opSucceeds (gh : String → Option Handler) (i : Nat) (op : LuaVal) : Bool :=
  (processOp gh i op).2.1

/-- Whether batch.execute rejects an operation before dispatching to its
handler: bad structure, denylisted method, method not on the allow-list,
invalid parameters, or no registered handler. -/
def preDispatchRejected (gh : String → Option Handler) (op : LuaVal) : Bool :=
  match getStringMethod op with
  | none => true
  | some m =>
    disallowedInBatch m || !(validator.isAllowed m) ||
      !(validator.validateParams m (opParamsOf op)).1 || (gh m).isNone

/-- The body of a JSON-RPC 2.0 response: exactly one of a result value or an
error object \x7bcode, message, data?\x7d (absent data is modelled as nil). -/
inductive RespBody where
  | result (v : LuaVal)
  | err (code : Int) (message : String) (data : LuaVal)

/-- A JSON-RPC 2.0 response envelope as built by protocol.lua: the echoed id
(Lua nil when the request id could not be recovered) and the body. The fixed
jsonrpc="2.0" tag is implicit. -/
structure Response where
  id : LuaVal
  body : RespBody

/-- protocol.createResponse: a success envelope echoing the request id. -/
def protocol.createResponse (id : LuaVal) (result : LuaVal) : Response :=
  ⟨id, .result result⟩

/-- protocol.createError: an error envelope; id may be nil for parse errors,
and the optional data field is nil when not supplied (as at every call site in
the server). -/
def protocol.createError (id : LuaVal) (code : Int) (message : String) :
    Response :=
  ⟨id, .err code message .nil⟩

/-- Contents of a file in the shared IPC directory. `raw` is an arbitrary byte
string; `enc r` stands for the JSON text `json.encode` produces for the
response envelope `r`; `encReq` stands for the JSON text the bridge client
writes for a request envelope. -/
inductive FileContent where
  | raw (s : String)
  | enc (r : Response)
  | encReq (id : Nat) (method : String) (params : LuaVal)

/-- The shared IPC directory, as a list of (file name, contents) pairs. -/
abbrev FS := List (String × FileContent)

/-- Read a file by name. -/
def fsRead (fs : FS) (name : String) : Option FileContent :=
  (fs.find? (fun p => p.1 = name)).map (fun p => p.2)

/-- Delete a file by name (os.remove / fs.unlink). -/
def fsRemove (fs : FS) (name : String) : FS :=
  fs.filter (fun p => p.1 ≠ name)

/-- Atomically write a file (write-to-temp-then-rename collapses to a single
update of the directory state). -/
def fsWrite (fs : FS) (name : String) (c : FileContent) : FS :=
  fsRemove fs name ++ [(name, c)]

/-- Whether a file exists (io.open probe). -/
def fsExists (fs : FS) (name : String) : Bool :=
  (fsRead fs name).isSome

/-- The request file name for correlation id `id`. -/
def reqName (id : Nat) : String := "req_" ++ toString id ++ ".json"

/-- The response file name for correlation id `id`. -/
def respName (id : Nat) : String := "resp_" ++ toString id ++ ".json"

/-- The probing loop of findFilesByPrefix from server.lua: try ids upward,
reset the miss counter on a hit, increment it on a miss, and stop once more
than 100 consecutive ids are missing. `fuel` is the number of ids left to try
(10000 at the top). Returns the ids found, in increasing order (the source
returns the corresponding file names). -/
def findAux (ex : Nat → Bool) : Nat → Nat → Nat → List Nat
  | _, _, 0 => []
  | id, misses, fuel + 1 =>
    if ex id then id :: findAux ex (id + 1) 0 fuel
    else if misses + 1 > 100 then []
    else findAux ex (id + 1) (misses + 1) fuel

/-- findFilesByPrefix from server.lua: probe ids 1..10000 with an early exit
after a run of more than 100 consecutive misses. `ex id` tells whether a file
with that id exists for the prefix being scanned. -/
def findFiles (ex : Nat → Bool) : List Nat := findAux ex 1 0 10000

/-- The `jsonrpc == "2.0"` version-tag check (false on any non-string). -/
def isVersionTag : LuaVal → Bool
  | .str s => s = "2.0"
  | _ => false

/-- Whether a file content is the empty string (the `jsonStr == ""` check of
protocol.parseRequest). -/
def FileContent.isEmptyStr : FileContent → Bool
  | .raw s => s = ""
  | _ => false

/-- A parsed JSON-RPC request, as consumed by the dispatcher after
protocol.parseRequest has checked the envelope: the id (non-nil), the method
(a non-empty string) and the raw params field (possibly nil). -/
structure ParsedRequest where
  id : LuaVal
  method : String
  params : LuaVal

/-- protocol.parseRequest from protocol.lua, parameterised by the JSON decoder
`decode` (the global `json.decode` under pcall: `none` covers both a raised
decode error and a non-string input). Rejects the empty string, undecodable
payloads, non-table decodes, a missing or wrong jsonrpc version tag, a missing
id, and a missing or non-string or empty method. -/
def protocol.parseRequest (decode : FileContent → Option LuaVal)
    (c : FileContent) : Except String ParsedRequest :=
  if c.isEmptyStr then .error "Invalid input: expected non-empty JSON string"
  else
    match decode c with
    | none => .error "Parse error: malformed JSON"
    | some v =>
      match v with
      | .table _ h =>
        if isVersionTag (hashGet h "jsonrpc") then
          if (hashGet h "id").isNil then
            .error "Invalid request: missing id field"
          else
            match hashGet h "method" with
            | .str m =>
              if m = "" then
                .error "Invalid request: missing or invalid method field"
              else .ok ⟨hashGet h "id", m, hashGet h "params"⟩
            | _ => .error "Invalid request: missing or invalid method field"
        else
          .error ("Invalid request: missing or incorrect jsonrpc version " ++
            "(must be \"2.0\")")
      | _ => .error "Parse error: malformed JSON"

/-- The dispatch stage of server.processRequest, applied to a request that
passed protocol.parseRequest: check the allow-list, validate parameters, look
up the handler, run it under pcall, and produce the response envelope. -/
def server.dispatch (gh : String → Option Handler) (req : ParsedRequest) :
    Response :=
  if !(validator.isAllowed req.method) then
    protocol.createError req.id (-32601) ("Method not found: " ++ req.method)
  else
    if !(validator.validateParams req.method (luaOr req.params emptyTable)).1 then
      protocol.createError req.id (-32602)
        ((validator.validateParams req.method
          (luaOr req.params emptyTable)).2.getD "Invalid parameters")
    else
      match gh req.method with
      | none =>
        protocol.createError req.id (-32601)
          ("No handler registered for: " ++ req.method)
      | some h =>
        match h (luaOr req.params emptyTable) with
        | .thrown msg =>
          protocol.createError req.id (-32603) ("Handler error: " ++ msg)
        | .ret r e =>
          match e with
          | some errMsg =>
            if r.isNil then protocol.createError req.id (-32603) errMsg
            else protocol.createResponse req.id r
          | none => protocol.createResponse req.id r

/-- server.processRequest from server.lua: parse the request and dispatch it.
Parse failures produce a PARSE_ERROR response whose id is nil (createError's
first argument is nil there). -/
def server.processRequest (decode : FileContent → Option LuaVal)
    (gh : String → Option Handler) (c : FileContent) : Response :=
  match protocol.parseRequest decode c with
  | .error e => protocol.createError .nil (-32700) e
  | .ok req => server.dispatch gh req

/-- The request-processing loop inside server.poll: walk the ids found by the
scan, stop once 2 requests have been processed in this tick, and for each
still-existing request file write the response file and delete the request
file. A request file that vanished between the scan and the read is skipped
without counting against the per-tick cap. -/
def server.pollProcess (decode : FileContent → Option LuaVal)
    (gh : String → Option Handler) : FS → List Nat → Nat → FS
  | fs, [], _ => fs
  | fs, id :: rest, processed =>
    if processed ≥ 2 then fs
    else
      match fsRead fs (reqName id) with
      | some content =>
        server.pollProcess decode gh
          (fsRemove (fsWrite fs (respName id)
            (.enc (server.processRequest decode gh content))) (reqName id))
          rest (processed + 1)
      | none => server.pollProcess decode gh fs rest processed

/-- server.poll from server.lua: when running, scan for request files by id
probing against the current directory state, then process at most 2 of them. -/
def server.poll (decode : FileContent → Option LuaVal)
    (gh : String → Option Handler) (running : Bool) (fs : FS) : FS :=
  if running then
    server.pollProcess decode gh fs
      (findFiles (fun id => fsExists fs (reqName id))) 0
  else fs

/-- JavaScript truthiness for the decoded JSON values the bridge handles:
undefined/null, false, 0 and "" are falsy. -/
def jsTruthy : LuaVal → Bool
  | .nil => false
  | .boolean b => b
  | .num n => n ≠ 0
  | .str s => s ≠ ""
  | .table _ _ => true

/-- The `typeof parsed === "object" && parsed !== null` check of
parseResponse: only (decoded) objects and arrays qualify. -/
def isJsObject : LuaVal → Bool
  | .table _ _ => true
  | _ => false

/-- JavaScript's String.trim(): drop whitespace from both ends (expressed
over the character list so that it computes by reduction). -/
def strTrim (s : String) : String :=
  ⟨((s.data.dropWhile Char.isWhitespace).reverse.dropWhile
      Char.isWhitespace).reverse⟩

/-- Trimming a file content (`data.trim()`): only raw text can shrink;
encoded envelopes have no surrounding whitespace. -/
def FileContent.trimmed : FileContent → FileContent
  | .raw s => .raw (strTrim s)
  | c => c

/-- The first 200 characters of raw text, used in the invalid-JSON message of
parseResponse; the textual form of an encoded envelope is not tracked by the
embedding, so it contributes an empty preview. -/
def FileContent.textPreview : FileContent → String
  | .raw s => s.take 200
  | _ => ""

/-- Rendering of a decoded JSON value into message text (`String(x)` /
`JSON.stringify(x)` in the bridge); only its use inside error message strings
matters here. -/
def luaDisplay : LuaVal → String
  | .nil => "null"
  | .boolean true => "true"
  | .boolean false => "false"
  | .num n => toString n
  | .str s => s
  | .table _ _ => "[object Object]"

/-- parseResponse from the bridge protocol module, parameterised by the JSON
parser `jsParse` (JSON.parse: `none` models a raised SyntaxError). Rejects
empty (after trimming) payloads, undecodable payloads, non-object decodes and
a missing or wrong jsonrpc version tag; otherwise returns the decoded
response object. -/
def parseResponse (jsParse : FileContent → Option LuaVal) (data : FileContent) :
    Except String LuaVal :=
  let trimmed := data.trimmed
  if trimmed.isEmptyStr then .error "Empty response from MOHO server"
  else
    match jsParse trimmed with
    | none =>
      .error ("Invalid JSON from MOHO server: " ++ trimmed.textPreview)
    | some v =>
      if !(isJsObject v) then
        .error "MOHO server response is not a JSON object"
      else if isVersionTag (hashGetVal v "jsonrpc") then .ok v
      else
        .error ("Unexpected jsonrpc version: " ++
          (match hashGetVal v "jsonrpc" with
           | .nil => "missing"
           | w => luaDisplay w))

/-- Final outcome of MohoClient.sendRequest: the returned result value, a
thrown non-timeout error (parse failure or a MOHO error response), or the
thrown timeout error. -/
inductive SendOutcome where
  | ok (v : LuaVal)
  | errThrown (msg : String)
  | timedOutErr (msg : String)

/-- The timeout error message thrown by sendRequest. -/
def timeoutMessage (method : String) (id timeout : Nat) : String :=
  "Request " ++ method ++ " (id=" ++ toString id ++ ") timed out after " ++
    toString timeout ++ "ms. Is the MOHO MCP server running and polling?"

/-- The message of the error thrown when a response envelope carries an error
object. -/
def mohoErrorMessage (e : LuaVal) : String :=
  "MOHO error [" ++ luaDisplay (hashGetVal e "code") ++ "]: " ++
    luaDisplay (hashGetVal e "message") ++
    (if jsTruthy (hashGetVal e "data") then
      " (" ++ luaDisplay (hashGetVal e "data") ++ ")"
     else "")

/-- The polling loop of MohoClient.sendRequest. `time k` is the value of
Date.now() at the k-th existence check; the directory state `fs` is the state
the loop observes (a response that never appears corresponds to `fs` holding
no response file for this id). On each iteration: if the response file exists,
delete it, parse it and either return the result or throw; otherwise, once
the elapsed time exceeds the timeout, delete the request file and throw the
timeout error; else sleep pollInterval and poll again. `fuel` bounds the
number of iterations of this model; `none` means the fuel ran out. -/
def sendLoop (jsParse : FileContent → Option LuaVal) (timeout start : Nat)
    (time : Nat → Nat) (method : String) (id : Nat) (fs : FS) :
    Nat → Nat → Option (FS × SendOutcome)
  | _, 0 => none
  | k, fuel + 1 =>
    match fsRead fs (respName id) with
    | some content =>
      let fs1 := fsRemove fs (respName id)
      match parseResponse jsParse content with
      | .error m => some (fs1, .errThrown m)
      | .ok v =>
        if jsTruthy (hashGetVal v "error") then
          some (fs1, .errThrown (mohoErrorMessage (hashGetVal v "error")))
        else some (fs1, .ok (hashGetVal v "result"))
    | none =>
      if time k - start > timeout then
        some (fsRemove fs (reqName id), .timedOutErr (timeoutMessage method id timeout))
      else sendLoop jsParse timeout start time method id fs (k + 1) fuel

/-- MohoClient.sendRequest from moho-client.ts: refuse when not connected,
resolve the per-call or default timeout, write the request file atomically,
then poll for the response. `start` is Date.now() right after the write. -/
def MohoClient.sendRequest (jsParse : FileContent → Option LuaVal)
    (connected : Bool) (requestTimeout : Nat) (timeoutOpt : Option Nat)
    (time : Nat → Nat) (start : Nat) (method : String) (params : LuaVal)
    (id : Nat) (fs : FS) (fuel : Nat) : Option (FS × SendOutcome) :=
  if !connected then
    some (fs, .errThrown ("Not connected to MOHO. Is the MOHO application " ++
      "running with the MCP plugin loaded?"))
  else
    sendLoop jsParse (timeoutOpt.getD requestTimeout) start time method id
      (fsWrite fs (reqName id) (.encReq id method params)) 0 fuel

/-- Whether a Lua value is a table (the `type(params) ~= "table"` check). -/
def isLuaTable : LuaVal → Bool
  | .table _ _ => true
  | _ => false

/-- A schema field is satisfied by a params hash when it is present and has
the declared runtime type. -/
def fieldOk (h : List (String × LuaVal)) (f : String × String) : Prop :=
  (hashGet h f.1).isNil = false ∧ luaType (hashGet h f.1) = f.2

/-- A sample handler that succeeds, returning an empty table. -/
def okHandler : Handler := fun _ => .ret (.table [] []) none

/-- A sample handler that raises (its pcall reports the message "boom"). -/
def throwHandler : Handler := fun _ => .thrown "boom"

/-- A sample registry exposing only document.getInfo, with a succeeding
handler. -/
def ghSample : String → Option Handler :=
  fun m => if m = "document.getInfo" then some okHandler else none

/-- A sample registry exposing only document.getInfo, with a handler that
raises. -/
def ghThrow : String → Option Handler :=
  fun m => if m = "document.getInfo" then some throwHandler else none

/-- A sample well-formed batch operation calling document.getInfo. -/
def opInfo : LuaVal := .table [] [("method", .str "document.getInfo")]

/-- A sample batch operation naming a method that is not on the allow-list. -/
def opUnknown : LuaVal := .table [] [("method", .str "nope")]

/-- A sample handler that signals a domain failure by returning nil plus an
error string. -/
def errHandler : Handler := fun _ => .ret .nil (some "domain failure")

/-- A sample registry exposing only document.getInfo, with a handler that
returns a domain error. -/
def ghErrReg : String → Option Handler :=
  fun m => if m = "document.getInfo" then some errHandler else none

/-- A JSON decoder that fails on every payload. -/
def decodeNone : FileContent → Option LuaVal := fun _ => none

/-- A JSON decoder that yields a bare string for every payload (a decoded
value that is not an object). -/
def decodeStr : FileContent → Option LuaVal := fun _ => some (.str "x")

/-- A JSON decoder that yields an empty object for every payload (an object
with no version tag). -/
def decodeObj : FileContent → Option LuaVal := fun _ => some (.table [] [])

/-- A JSON decoder recognising exactly one request text: the raw content
"REQ5" decodes to a document.getInfo request envelope with id 5. -/
def decodeSample : FileContent → Option LuaVal := fun c =>
  match c with
  | .raw "REQ5" =>
    some (.table [] [("jsonrpc", .str "2.0"), ("id", .num 5),
      ("method", .str "document.getInfo")])
  | _ => none

lemma validateFields_cons (name ty : String) (rest : List (String × String))
    (h : List (String × LuaVal)) :
    validateFields ((name, ty) :: rest) h =
      if (hashGet h name).isNil then
        (false, some ("Missing required parameter: " ++ name))
      else if luaType (hashGet h name) ≠ ty then
        (false, some ("Invalid parameter type for " ++ sq ++ name ++ sq ++
          ": expected " ++ ty ++ ", got " ++ luaType (hashGet h name)))
      else validateFields rest h := rfl

lemma validateFields_skip_ok (h : List (String × LuaVal))
    (pre rest : List (String × String)) (hok : ∀ f ∈ pre, fieldOk h f) :
    validateFields (pre ++ rest) h = validateFields rest h := by
  induction pre with
  | nil => rfl
  | cons f pre ih =>
    obtain ⟨hne, hty⟩ := hok f (List.mem_cons_self f pre)
    obtain ⟨name, ty⟩ := f
    have hne2 : (hashGet h name).isNil = false := hne
    have hty2 : luaType (hashGet h name) = ty := hty
    show validateFields ((name, ty) :: (pre ++ rest)) h = validateFields rest h
    rw [validateFields_cons, if_neg (by simp [hne2]), if_neg (not_not_intro hty2)]
    exact ih (fun g hg => hok g (List.mem_cons_of_mem (name, ty) hg))

lemma validateFields_all_ok (h : List (String × LuaVal))
    (sch : List (String × String)) (hok : ∀ f ∈ sch, fieldOk h f) :
    validateFields sch h = (true, none) := by
  have := validateFields_skip_ok h sch [] hok
  simpa using this

lemma validateParams_empty_schema (m : String) (params : LuaVal)
    (hsch : lookupSchema m = some []) :
    validator.validateParams m params = (true, none) := by
  unfold validator.validateParams
  rw [hsch]
  rfl

lemma validateParams_table_eq (m : String) (sch : List (String × String))
    (arr : List LuaVal) (h : List (String × LuaVal))
    (hsch : lookupSchema m = some sch) (hne : sch ≠ []) :
    validator.validateParams m (.table arr h) = validateFields sch h := by
  have hemp : sch.isEmpty = false := by
    cases sch with
    | nil => exact absurd rfl hne
    | cons a t => rfl
  unfold validator.validateParams
  rw [hsch]
  show (if sch.isEmpty then ((true, none) : Bool × Option String)
    else validateFields sch h) = validateFields sch h
  rw [hemp]
  rfl

/-- C5: a method with an empty schema validates any parameters value; a method
with a non-empty schema requires the parameters to be a table, checks each
declared field's presence before its type in schema order, reports exactly the
first violation, and the message names the offending field and whether it was
missing or had the wrong type; when every declared field is present with the
declared type, validation passes. -/
theorem validateParams_first_violation :
    (∀ m params, lookupSchema m = some [] →
      validator.validateParams m params = (true, none)) ∧
    (∀ m sch params, lookupSchema m = some sch → sch ≠ [] →
      isLuaTable params = false →
      validator.validateParams m params =
        (false, some "Missing params: expected a table of parameters")) ∧
    (∀ m pre name ty post arr h,
      lookupSchema m = some (pre ++ (name, ty) :: post) →
      (∀ f ∈ pre, fieldOk h f) →
      (((hashGet h name).isNil = true →
        validator.validateParams m (.table arr h) =
          (false, some ("Missing required parameter: " ++ name))) ∧
       ((hashGet h name).isNil = false → luaType (hashGet h name) ≠ ty →
        validator.validateParams m (.table arr h) =
          (false, some ("Invalid parameter type for " ++ sq ++ name ++ sq ++
            ": expected " ++ ty ++ ", got " ++ luaType (hashGet h name)))))) ∧
    (∀ m sch arr h, lookupSchema m = some sch → (∀ f ∈ sch, fieldOk h f) →
      validator.validateParams m (.table arr h) = (true, none)) := by
  refine ⟨?_, ?_, ?_, ?_⟩
  · intro m params hsch
    exact validateParams_empty_schema m params hsch
  · intro m sch params hsch hne htab
    have hemp : sch.isEmpty = false := by
      cases sch with
      | nil => exact absurd rfl hne
      | cons a t => rfl
    unfold validator.validateParams
    rw [hsch]
    cases params with
    | table arr h => simp [isLuaTable] at htab
    | nil =>
      show (if sch.isEmpty then ((true, none) : Bool × Option String)
        else (false, some "Missing params: expected a table of parameters")) = _
      rw [hemp]; rfl
    | boolean b =>
      show (if sch.isEmpty then ((true, none) : Bool × Option String)
        else (false, some "Missing params: expected a table of parameters")) = _
      rw [hemp]; rfl
    | num n =>
      show (if sch.isEmpty then ((true, none) : Bool × Option String)
        else (false, some "Missing params: expected a table of parameters")) = _
      rw [hemp]; rfl
    | str s =>
      show (if sch.isEmpty then ((true, none) : Bool × Option String)
        else (false, some "Missing params: expected a table of parameters")) = _
      rw [hemp]; rfl
  · intro m pre name ty post arr h hsch hok
    have hne : pre ++ (name, ty) :: post ≠ [] := by
      intro hcontra
      exact absurd (List.append_eq_nil.mp hcontra).2 (List.cons_ne_nil _ _)
    constructor
    · intro hmiss
      rw [validateParams_table_eq m _ arr h hsch hne,
        validateFields_skip_ok h pre _ hok, validateFields_cons, if_pos hmiss]
    · intro hpres hty
      rw [validateParams_table_eq m _ arr h hsch hne,
        validateFields_skip_ok h pre _ hok, validateFields_cons,
        if_neg (by simp [hpres]), if_pos hty]
  · intro m sch arr h hsch hok
    by_cases hemp : sch = []
    · subst hemp
      exact validateParams_empty_schema m _ hsch
    · rw [validateParams_table_eq m sch arr h hsch hemp,
        validateFields_all_ok h sch hok]

/-- Witness for C5: the schema of layer.getProperties is [(layerId, number)];
validating an empty table names layerId as missing, validating a string
layerId names the type mismatch, validating a numeric layerId passes, and a
method with an empty schema (document.getInfo) accepts any parameters. -/
theorem validateParams_first_violation_witness :
    validator.validateParams "document.getInfo" (.str "junk") = (true, none) ∧
    validator.validateParams "layer.getProperties" (.num 3) =
      (false, some "Missing params: expected a table of parameters") ∧
    validator.validateParams "layer.getProperties" (.table [] []) =
      (false, some "Missing required parameter: layerId") ∧
    validator.validateParams "layer.getProperties"
        (.table [] [("layerId", .str "x")]) =
      (false, some ("Invalid parameter type for " ++ sq ++ "layerId" ++ sq ++
        ": expected number, got string")) ∧
    validator.validateParams "layer.getProperties"
        (.table [] [("layerId", .num 1)]) = (true, none) := by
  obtain ⟨h1, h2, h3, h4⟩ := validateParams_first_violation
  refine ⟨h1 "document.getInfo" (.str "junk") (by decide),
    h2 "layer.getProperties" [("layerId", "number")] (.num 3) (by decide)
      (by decide) (by decide), ?_, ?_, ?_⟩
  · exact (h3 "layer.getProperties" [] "layerId" "number" [] [] []
      (by decide) (by simp)).1 (by decide)
  · have := (h3 "layer.getProperties" [] "layerId" "number" []
      [] [("layerId", .str "x")] (by decide) (by simp)).2
      (by decide) (by decide)
    simpa using this
  · exact h4 "layer.getProperties" [("layerId", "number")] []
      [("layerId", .num 1)] (by decide)
      (by intro f hf; simp at hf; subst hf; exact ⟨by decide, by decide⟩)

lemma hashGetVal_table (arr : List LuaVal) (h : List (String × LuaVal))
    (key : String) : hashGetVal (.table arr h) key = hashGet h key := rfl

lemma processOp_index (gh : String → Option Handler) (i : Nat) (op : LuaVal) :
    (processOp gh i op).1.index = i := by
  unfold processOp
  (repeat' split) <;> rfl

lemma batchLoop_nil (gh : String → Option Handler) (so : Bool) (i : Nat)
    (st : LoopState) : batchLoop gh so i st [] = ([], st) := rfl

lemma batchLoop_fst_skip (gh : String → Option Handler) (so : Bool) (i : Nat)
    (st : LoopState) (op : LuaVal) (rest : List LuaVal)
    (hst : st.stoppedEarly = true) :
    (batchLoop gh so i st (op :: rest)).1 =
      skipEntry i :: (batchLoop gh so (i + 1) st rest).1 := by
  simp only [batchLoop]
  rw [if_pos hst]

lemma batchLoop_snd_skip (gh : String → Option Handler) (so : Bool) (i : Nat)
    (st : LoopState) (op : LuaVal) (rest : List LuaVal)
    (hst : st.stoppedEarly = true) :
    (batchLoop gh so i st (op :: rest)).2 =
      (batchLoop gh so (i + 1) st rest).2 := by
  simp only [batchLoop]
  rw [if_pos hst]

lemma batchLoop_fst_act (gh : String → Option Handler) (so : Bool) (i : Nat)
    (st : LoopState) (op : LuaVal) (rest : List LuaVal)
    (hst : st.stoppedEarly = false) :
    (batchLoop gh so i st (op :: rest)).1 =
      (processOp gh i op).1 ::
        (batchLoop gh so (i + 1)
          (stepState so i st (processOp gh i op)) rest).1 := by
  simp only [batchLoop]
  rw [if_neg (by rw [hst]; exact Bool.false_ne_true)]

lemma batchLoop_snd_act (gh : String → Option Handler) (so : Bool) (i : Nat)
    (st : LoopState) (op : LuaVal) (rest : List LuaVal)
    (hst : st.stoppedEarly = false) :
    (batchLoop gh so i st (op :: rest)).2 =
      (batchLoop gh so (i + 1)
        (stepState so i st (processOp gh i op)) rest).2 := by
  simp only [batchLoop]
  rw [if_neg (by rw [hst]; exact Bool.false_ne_true)]

lemma batchLoop_index (gh : String → Option Handler) (so : Bool) :
    ∀ (ops : List LuaVal) (i : Nat) (st : LoopState),
      (batchLoop gh so i st ops).1.map (fun e => e.index) =
        List.range' i ops.length
  | [], i, st => by simp [batchLoop_nil]
  | op :: rest, i, st => by
    simp only [List.length_cons, List.range'_succ]
    by_cases hst : st.stoppedEarly = true
    · rw [batchLoop_fst_skip gh so i st op rest hst, List.map_cons,
        batchLoop_index gh so rest (i + 1) st]
      rfl
    · rw [batchLoop_fst_act gh so i st op rest (Bool.eq_false_iff.mpr hst),
        List.map_cons, processOp_index, batchLoop_index gh so rest (i + 1) _]

lemma batchLoop_length (gh : String → Option Handler) (so : Bool)
    (ops : List LuaVal) (i : Nat) (st : LoopState) :
    (batchLoop gh so i st ops).1.length = ops.length := by
  have := congrArg List.length (batchLoop_index gh so ops i st)
  simpa using this

lemma batchLoop_skip_run (gh : String → Option Handler) (so : Bool) :
    ∀ (ops : List LuaVal) (i : Nat) (st : LoopState),
      st.stoppedEarly = true →
      batchLoop gh so i st ops = ((List.range' i ops.length).map skipEntry, st)
  | [], i, st, hst => by simp [batchLoop_nil]
  | op :: rest, i, st, hst => by
    have hrec := batchLoop_skip_run gh so rest (i + 1) st hst
    have h1 := batchLoop_fst_skip gh so i st op rest hst
    have h2 := batchLoop_snd_skip gh so i st op rest hst
    rw [hrec] at h1 h2
    simp only [List.length_cons, List.range'_succ, List.map_cons]
    rw [Prod.ext_iff]
    exact ⟨h1, h2⟩

lemma batchLoop_append_snd (gh : String → Option Handler) (so : Bool) :
    ∀ (xs ys : List LuaVal) (i : Nat) (st : LoopState),
      (batchLoop gh so i st (xs ++ ys)).2 =
        (batchLoop gh so (i + xs.length)
          (batchLoop gh so i st xs).2 ys).2
  | [], ys, i, st => by simp [batchLoop_nil]
  | x :: xs, ys, i, st => by
    have harith : i + (x :: xs).length = (i + 1) + xs.length := by
      simp only [List.length_cons]
      omega
    rw [harith]
    by_cases hst : st.stoppedEarly = true
    · rw [List.cons_append, batchLoop_snd_skip gh so i st x (xs ++ ys) hst,
        batchLoop_snd_skip gh so i st x xs hst,
        batchLoop_append_snd gh so xs ys (i + 1) st]
    · have hst' : st.stoppedEarly = false := Bool.eq_false_iff.mpr hst
      rw [List.cons_append, batchLoop_snd_act gh so i st x (xs ++ ys) hst',
        batchLoop_snd_act gh so i st x xs hst',
        batchLoop_append_snd gh so xs ys (i + 1) _]

lemma batchLoop_append_fst (gh : String → Option Handler) (so : Bool) :
    ∀ (xs ys : List LuaVal) (i : Nat) (st : LoopState),
      (batchLoop gh so i st (xs ++ ys)).1 =
        (batchLoop gh so i st xs).1 ++
          (batchLoop gh so (i + xs.length)
            (batchLoop gh so i st xs).2 ys).1
  | [], ys, i, st => by simp [batchLoop_nil]
  | x :: xs, ys, i, st => by
    have harith : i + (x :: xs).length = (i + 1) + xs.length := by
      simp only [List.length_cons]
      omega
    rw [harith]
    by_cases hst : st.stoppedEarly = true
    · rw [List.cons_append, batchLoop_fst_skip gh so i st x (xs ++ ys) hst,
        batchLoop_fst_skip gh so i st x xs hst,
        batchLoop_snd_skip gh so i st x xs hst,
        batchLoop_append_fst gh so xs ys (i + 1) st, List.cons_append]
    · have hst' : st.stoppedEarly = false := Bool.eq_false_iff.mpr hst
      rw [List.cons_append, batchLoop_fst_act gh so i st x (xs ++ ys) hst',
        batchLoop_fst_act gh so i st x xs hst',
        batchLoop_snd_act gh so i st x xs hst',
        batchLoop_append_fst gh so xs ys (i + 1) _, List.cons_append]

lemma batchLoop_calls_bound (gh : String → Option Handler) (so : Bool) :
    ∀ (ops : List LuaVal) (i : Nat) (st : LoopState) (c : Nat),
      c ∈ (batchLoop gh so i st ops).2.calls →
      c ∈ st.calls ∨ (i ≤ c ∧ c < i + ops.length)
  | [], i, st, c => by
    intro hc
    exact Or.inl hc
  | op :: rest, i, st, c => by
    intro hc
    by_cases hst : st.stoppedEarly = true
    · rw [batchLoop_snd_skip gh so i st op rest hst] at hc
      rcases batchLoop_calls_bound gh so rest (i + 1) st c hc with h | ⟨h1, h2⟩
      · exact Or.inl h
      · right
        refine ⟨by omega, ?_⟩
        simp only [List.length_cons]
        omega
    · rw [batchLoop_snd_act gh so i st op rest
        (Bool.eq_false_iff.mpr hst)] at hc
      rcases batchLoop_calls_bound gh so rest (i + 1) _ c hc with h | ⟨h1, h2⟩
      · simp only [stepState, List.mem_append] at h
        rcases h with h | h
        · exact Or.inl h
        · right
          have hci : c = i := by
            by_cases hcall : (processOp gh i op).2.2 = true
            · rw [if_pos hcall] at h
              simpa using h
            · rw [if_neg hcall] at h
              simp at h
          subst hci
          simp only [List.length_cons]
          omega
      · right
        refine ⟨by omega, ?_⟩
        simp only [List.length_cons]
        omega

lemma batchLoop_all_ok (gh : String → Option Handler) (so : Bool) :
    ∀ (ops : List LuaVal) (i : Nat) (st : LoopState),
      (∀ j op, op ∈ ops → opSucceeds gh j op = true) →
      st.stoppedEarly = false →
      (batchLoop gh so i st ops).2.succeeded = st.succeeded + ops.length ∧
      (batchLoop gh so i st ops).2.failed = st.failed ∧
      (batchLoop gh so i st ops).2.executed = st.executed + ops.length ∧
      (batchLoop gh so i st ops).2.stoppedEarly = false
  | [], i, st, _, hst => by simp [batchLoop_nil, hst]
  | op :: rest, i, st, hok, hst => by
    have hop : (processOp gh i op).2.1 = true :=
      hok i op (List.mem_cons_self op rest)
    have hst' : (stepState so i st (processOp gh i op)).stoppedEarly = false := by
      simp [stepState, hop]
    obtain ⟨h1, h2, h3, h4⟩ := batchLoop_all_ok gh so rest (i + 1)
      (stepState so i st (processOp gh i op))
      (fun j x hx => hok j x (List.mem_cons_of_mem op hx)) hst'
    rw [batchLoop_snd_act gh so i st op rest hst]
    refine ⟨?_, ?_, ?_, h4⟩
    · rw [h1]
      simp only [stepState, hop, if_pos, List.length_cons]
      omega
    · rw [h2]
      simp [stepState, hop]
    · rw [h3]
      simp only [stepState, List.length_cons]
      omega

lemma batchLoop_counter_invariant (gh : String → Option Handler) (so : Bool) :
    ∀ (ops : List LuaVal) (i : Nat) (st : LoopState),
      st.executed = st.succeeded + st.failed →
      (batchLoop gh so i st ops).2.executed =
        (batchLoop gh so i st ops).2.succeeded +
          (batchLoop gh so i st ops).2.failed
  | [], i, st, hinv => by simpa [batchLoop_nil] using hinv
  | op :: rest, i, st, hinv => by
    by_cases hst : st.stoppedEarly = true
    · rw [batchLoop_snd_skip gh so i st op rest hst]
      exact batchLoop_counter_invariant gh so rest (i + 1) st hinv
    · rw [batchLoop_snd_act gh so i st op rest (Bool.eq_false_iff.mpr hst)]
      refine batchLoop_counter_invariant gh so rest (i + 1) _ ?_
      by_cases hop : (processOp gh i op).2.1 = true
      · simp only [stepState, hop, if_pos]
        omega
      · simp only [stepState, hop, if_neg]
        simp only [Bool.not_eq_true] at hop
        simp [hop]
        omega

lemma batch_execute_run (gh : String → Option Handler) (params : LuaVal)
    (ops : List LuaVal) (oh : List (String × LuaVal))
    (hops : hashGetVal params "operations" = .table ops oh)
    (h1 : ops.length ≠ 0) (h50 : ops.length ≤ 50) :
    batch.execute gh params =
      (Except.ok
        ⟨(batchLoop gh (luaTruthy (hashGetVal params "stopOnError")) 1
            ⟨0, 0, 0, false, []⟩ ops).1,
         ⟨ops.length,
          (batchLoop gh (luaTruthy (hashGetVal params "stopOnError")) 1
            ⟨0, 0, 0, false, []⟩ ops).2.executed,
          (batchLoop gh (luaTruthy (hashGetVal params "stopOnError")) 1
            ⟨0, 0, 0, false, []⟩ ops).2.succeeded,
          (batchLoop gh (luaTruthy (hashGetVal params "stopOnError")) 1
            ⟨0, 0, 0, false, []⟩ ops).2.failed,
          (batchLoop gh (luaTruthy (hashGetVal params "stopOnError")) 1
            ⟨0, 0, 0, false, []⟩ ops).2.stoppedEarly⟩⟩,
       (batchLoop gh (luaTruthy (hashGetVal params "stopOnError")) 1
         ⟨0, 0, 0, false, []⟩ ops).2.calls) := by
  unfold batch.execute
  rw [hops]
  show (if ops.length = 0 then
      ((Except.error "operations must be a non-empty array" :
        Except String BatchOutput), ([] : List Nat))
    else if ops.length > MAX_OPERATIONS then _ else _) = _
  rw [if_neg h1, if_neg (by unfold MAX_OPERATIONS; omega)]

lemma batch_execute_not_table (gh : String → Option Handler) (params : LuaVal)
    (h : isLuaTable (hashGetVal params "operations") = false) :
    batch.execute gh params =
      (.error "operations must be a non-empty array", []) := by
  unfold batch.execute
  cases hv : hashGetVal params "operations" with
  | table arr hh => rw [hv] at h; simp [isLuaTable] at h
  | nil => rfl
  | boolean b => rfl
  | num n => rfl
  | str s => rfl

lemma batch_execute_empty (gh : String → Option Handler) (params : LuaVal)
    (oh : List (String × LuaVal))
    (hops : hashGetVal params "operations" = .table [] oh) :
    batch.execute gh params =
      (.error "operations must be a non-empty array", []) := by
  unfold batch.execute
  rw [hops]
  rfl

lemma batch_execute_too_many (gh : String → Option Handler) (params : LuaVal)
    (ops : List LuaVal) (oh : List (String × LuaVal))
    (hops : hashGetVal params "operations" = .table ops oh)
    (hlen : ops.length > 50) :
    batch.execute gh params =
      (.error ("Too many operations: " ++ toString ops.length ++
        " (max " ++ toString MAX_OPERATIONS ++ ")"), []) := by
  unfold batch.execute
  rw [hops]
  show (if ops.length = 0 then
      ((Except.error "operations must be a non-empty array" :
        Except String BatchOutput), ([] : List Nat))
    else if ops.length > MAX_OPERATIONS then _ else _) = _
  rw [if_neg (by omega), if_pos (by unfold MAX_OPERATIONS; omega)]

lemma processOp_preDispatch (gh : String → Option Handler) (i : Nat)
    (op : LuaVal) (h : preDispatchRejected gh op = true) :
    (processOp gh i op).2.1 = false ∧ (processOp gh i op).2.2 = false := by
  unfold preDispatchRejected at h
  cases hgm : getStringMethod op with
  | none => simp [processOp, hgm]
  | some m =>
    rw [hgm] at h
    by_cases h1 : disallowedInBatch m = true
    · simp [processOp, hgm, h1]
    · have h1' : disallowedInBatch m = false := Bool.eq_false_iff.mpr h1
      by_cases h2 : validator.isAllowed m = true
      · by_cases h3 : (validator.validateParams m (opParamsOf op)).1 = true
        · have h4 : gh m = none := by
            simp only [h1', h2, h3, Bool.not_true, Bool.false_or,
              Bool.or_false] at h
            exact Option.isNone_iff_eq_none.mp h
          simp [processOp, hgm, h1', h2, h3, h4]
        · have h3' : (validator.validateParams m (opParamsOf op)).1 = false :=
            Bool.eq_false_iff.mpr h3
          simp [processOp, hgm, h1', h2, h3']
      · have h2' : validator.isAllowed m = false := Bool.eq_false_iff.mpr h2
        simp [processOp, hgm, h1', h2']

/-- C8: a batch whose operations array holds more than the maximum number of
operations (50) is rejected as a single top-level error before any operation
runs: the call returns a top-level error instead of a result array, and the
handler-invocation trace is empty. -/
theorem batch_too_many_rejected (gh : String → Option Handler)
    (params : LuaVal) (ops : List LuaVal) (oh : List (String × LuaVal))
    (hops : hashGetVal params "operations" = .table ops oh)
    (hlen : ops.length > 50) :
    batch.execute gh params =
      (.error ("Too many operations: " ++ toString ops.length ++
        " (max " ++ toString MAX_OPERATIONS ++ ")"), []) :=
  batch_execute_too_many gh params ops oh hops hlen

/-- Witness for C8: a batch of 51 operations is rejected with the top-level
size error and no handler is invoked. -/
theorem batch_too_many_rejected_witness :
    batch.execute ghSample
        (.table [] [("operations", .table (List.replicate 51 opInfo) [])]) =
      (.error ("Too many operations: " ++ toString (51 : Nat) ++
        " (max " ++ toString MAX_OPERATIONS ++ ")"), []) := by
  have h := batch_too_many_rejected ghSample
    (.table [] [("operations", .table (List.replicate 51 opInfo) [])])
    (List.replicate 51 opInfo) [] rfl (by simp)
  simpa using h

/-- C3: a structurally valid batch (an operations array of 1..50 entries)
always yields a result array with one entry per operation, carrying 1-based
indices in order — per-operation failures never turn the call into a top-level
error; only the structural problems (operations not a table, an empty array,
or more than 50 entries) produce the top-level error instead of a result
array; and at the dispatcher level, a handler that signals failure (such as
batch.execute reporting a structural problem) is converted into a top-level
error response for that call. -/
theorem batch_error_isolation :
    (∀ (gh : String → Option Handler) (params : LuaVal) (ops : List LuaVal)
      (oh : List (String × LuaVal)),
      hashGetVal params "operations" = .table ops oh →
      ops.length ≠ 0 → ops.length ≤ 50 →
      ∃ o calls, batch.execute gh params = (.ok o, calls) ∧
        o.results.length = ops.length ∧
        o.results.map (fun e => e.index) = List.range' 1 ops.length ∧
        o.summary.total = ops.length) ∧
    (∀ (gh : String → Option Handler) (params : LuaVal),
      isLuaTable (hashGetVal params "operations") = false →
      batch.execute gh params =
        (.error "operations must be a non-empty array", [])) ∧
    (∀ (gh : String → Option Handler) (params : LuaVal)
      (oh : List (String × LuaVal)),
      hashGetVal params "operations" = .table [] oh →
      batch.execute gh params =
        (.error "operations must be a non-empty array", [])) ∧
    (∀ (gh : String → Option Handler) (params : LuaVal) (ops : List LuaVal)
      (oh : List (String × LuaVal)),
      hashGetVal params "operations" = .table ops oh → ops.length > 50 →
      batch.execute gh params =
        (.error ("Too many operations: " ++ toString ops.length ++
          " (max " ++ toString MAX_OPERATIONS ++ ")"), [])) ∧
    (∀ (decode : FileContent → Option LuaVal) (gh : String → Option Handler)
      (c : FileContent) (req : ParsedRequest) (hnd : Handler) (m : String),
      protocol.parseRequest decode c = .ok req →
      validator.isAllowed req.method = true →
      (validator.validateParams req.method (luaOr req.params emptyTable)).1 =
        true →
      gh req.method = some hnd →
      hnd (luaOr req.params emptyTable) = .ret .nil (some m) →
      server.processRequest decode gh c =
        protocol.createError req.id (-32603) m) := by
  refine ⟨?_, ?_, ?_, ?_, ?_⟩
  · intro gh params ops oh hops h0 h50
    exact ⟨_, _, batch_execute_run gh params ops oh hops h0 h50,
      batchLoop_length gh _ ops 1 _, batchLoop_index gh _ ops 1 _, rfl⟩
  · intro gh params h
    exact batch_execute_not_table gh params h
  · intro gh params oh hops
    exact batch_execute_empty gh params oh hops
  · intro gh params ops oh hops hlen
    exact batch_execute_too_many gh params ops oh hops hlen
  · intro decode gh c req hnd m hparse hallow hvalid hgh hret
    unfold server.processRequest
    rw [hparse]
    simp [server.dispatch, hallow, hvalid, hgh, hret, LuaVal.isNil]

/-- Witness for C3: a 2-operation batch whose second operation names an
unknown method still returns a full result array; a non-array operations
value, an empty array and 51 operations each produce the top-level error; and
a dispatched handler signalling failure yields the internal-error response. -/
theorem batch_error_isolation_witness :
    (∃ o calls,
      batch.execute ghSample (mkBatchParams [opInfo, opUnknown] false) =
        (.ok o, calls) ∧
      o.results.length = 2 ∧
      o.results.map (fun e => e.index) = [1, 2] ∧
      o.summary.total = 2) ∧
    batch.execute ghSample (.table [] [("operations", .str "x")]) =
      (.error "operations must be a non-empty array", []) ∧
    batch.execute ghSample (.table [] [("operations", .table [] [])]) =
      (.error "operations must be a non-empty array", []) ∧
    server.processRequest decodeSample ghErrReg (.raw "REQ5") =
      protocol.createError (.num 5) (-32603) "domain failure" := by
  obtain ⟨hc1, hc2, hc3, hc4, hc5⟩ := batch_error_isolation
  refine ⟨?_, ?_, ?_, ?_⟩
  · obtain ⟨o, calls, h1, h2, h3, h4⟩ := hc1 ghSample
      (mkBatchParams [opInfo, opUnknown] false) [opInfo, opUnknown] []
      rfl (by decide) (by decide)
    exact ⟨o, calls, h1, h2.trans rfl, h3.trans rfl, h4.trans rfl⟩
  · exact hc2 ghSample (.table [] [("operations", .str "x")]) rfl
  · exact hc3 ghSample (.table [] [("operations", .table [] [])]) [] rfl
  · exact hc5 decodeSample ghErrReg (.raw "REQ5")
      ⟨.num 5, "document.getInfo", .nil⟩ errHandler "domain failure"
      rfl rfl rfl rfl rfl

/-- C1: in a batch run with stopOnError=true in which some operation fails
and every operation before it succeeds, the result array has one entry per
operation in original order (1-based indices); every entry after the failing
one is the synthetic skip entry (code -32000, fixed message), produced
without invoking any handler at those positions; the skipped entries are not
counted as executed; and the summary satisfies executed = succeeded + failed,
total ≥ executed and stoppedEarly = true. -/
theorem batch_stopOnError_skips (gh : String → Option Handler)
    (pre post : List LuaVal) (op : LuaVal)
    (hlen : (pre ++ op :: post).length ≤ 50)
    (hok : ∀ j x, x ∈ pre → opSucceeds gh j x = true)
    (hfail : opSucceeds gh (pre.length + 1) op = false) :
    ∃ o calls,
      batch.execute gh (mkBatchParams (pre ++ op :: post) true) =
        (.ok o, calls) ∧
      o.results.length = (pre ++ op :: post).length ∧
      o.results.map (fun e => e.index) =
        List.range' 1 (pre ++ op :: post).length ∧
      o.results.drop (pre.length + 1) =
        (List.range' (pre.length + 2) post.length).map skipEntry ∧
      o.summary.total = (pre ++ op :: post).length ∧
      o.summary.executed = pre.length + 1 ∧
      o.summary.succeeded = pre.length ∧
      o.summary.failed = 1 ∧
      o.summary.stoppedEarly = true ∧
      o.summary.executed = o.summary.succeeded + o.summary.failed ∧
      o.summary.executed ≤ o.summary.total ∧
      ∀ c ∈ calls, c ≤ pre.length + 1 := by
  have hops : hashGetVal (mkBatchParams (pre ++ op :: post) true)
      "operations" = .table (pre ++ op :: post) [] := rfl
  have hso : luaTruthy (hashGetVal (mkBatchParams (pre ++ op :: post) true)
      "stopOnError") = true := rfl
  have h0 : (pre ++ op :: post).length ≠ 0 := by simp
  have heq := batch_execute_run gh (mkBatchParams (pre ++ op :: post) true)
    (pre ++ op :: post) [] hops h0 hlen
  rw [hso] at heq
  have hfail' : (processOp gh (1 + pre.length) op).2.1 = false := by
    rw [Nat.add_comm]
    exact hfail
  obtain ⟨ha1, ha2, ha3, ha4⟩ :=
    batchLoop_all_ok gh true pre 1 ⟨0, 0, 0, false, []⟩ hok rfl
  simp only at ha1 ha2 ha3 ha4
  have hstopped : (stepState true (1 + pre.length)
      (batchLoop gh true 1 ⟨0, 0, 0, false, []⟩ pre).2
      (processOp gh (1 + pre.length) op)).stoppedEarly = true := by
    simp [stepState, hfail']
  have hfinal : (batchLoop gh true 1 ⟨0, 0, 0, false, []⟩
      (pre ++ op :: post)).2 =
      stepState true (1 + pre.length)
        (batchLoop gh true 1 ⟨0, 0, 0, false, []⟩ pre).2
        (processOp gh (1 + pre.length) op) := by
    rw [batchLoop_append_snd gh true pre (op :: post) 1 _,
      batchLoop_snd_act gh true (1 + pre.length) _ op post ha4,
      batchLoop_skip_run gh true post (1 + pre.length + 1) _ hstopped]
  have hexec : (batchLoop gh true 1 ⟨0, 0, 0, false, []⟩
      (pre ++ op :: post)).2.executed = pre.length + 1 := by
    rw [hfinal]
    simp [stepState, ha3]
  have hsucc : (batchLoop gh true 1 ⟨0, 0, 0, false, []⟩
      (pre ++ op :: post)).2.succeeded = pre.length := by
    rw [hfinal]
    simp [stepState, hfail', ha1]
  have hfailc : (batchLoop gh true 1 ⟨0, 0, 0, false, []⟩
      (pre ++ op :: post)).2.failed = 1 := by
    rw [hfinal]
    simp [stepState, hfail', ha2]
  have hstop : (batchLoop gh true 1 ⟨0, 0, 0, false, []⟩
      (pre ++ op :: post)).2.stoppedEarly = true := by
    rw [hfinal]
    exact hstopped
  have hcalls : ∀ c ∈ (batchLoop gh true 1 ⟨0, 0, 0, false, []⟩
      (pre ++ op :: post)).2.calls, c ≤ pre.length + 1 := by
    intro c hc
    rw [hfinal] at hc
    simp only [stepState, List.mem_append] at hc
    rcases hc with hc | hc
    · rcases batchLoop_calls_bound gh true pre 1 ⟨0, 0, 0, false, []⟩ c hc
        with h | ⟨hl, hr⟩
      · simp at h
      · omega
    · by_cases hcall : (processOp gh (1 + pre.length) op).2.2 = true
      · rw [if_pos hcall] at hc
        simp at hc
        omega
      · rw [if_neg hcall] at hc
        simp at hc
  have hlenA : (batchLoop gh true 1 ⟨0, 0, 0, false, []⟩ pre).1.length =
      pre.length := batchLoop_length gh true pre 1 _
  have hfst : (batchLoop gh true 1 ⟨0, 0, 0, false, []⟩
      (pre ++ op :: post)).1 =
      (batchLoop gh true 1 ⟨0, 0, 0, false, []⟩ pre).1 ++
        ((processOp gh (1 + pre.length) op).1 ::
          (List.range' (1 + pre.length + 1) post.length).map skipEntry) := by
    rw [batchLoop_append_fst gh true pre (op :: post) 1 _,
      batchLoop_fst_act gh true (1 + pre.length) _ op post ha4,
      batchLoop_skip_run gh true post (1 + pre.length + 1) _ hstopped]
  have hdrop : (batchLoop gh true 1 ⟨0, 0, 0, false, []⟩
      (pre ++ op :: post)).1.drop (pre.length + 1) =
      (List.range' (pre.length + 2) post.length).map skipEntry := by
    rw [hfst, ← hlenA]
    have harr : (batchLoop gh true 1 ⟨0, 0, 0, false, []⟩ pre).1.length + 1 =
        (batchLoop gh true 1 ⟨0, 0, 0, false, []⟩ pre).1.length + 1 := rfl
    rw [List.drop_append 1]
    have h12 : 1 + (batchLoop gh true 1 ⟨0, 0, 0, false, []⟩ pre).1.length +
        1 = (batchLoop gh true 1 ⟨0, 0, 0, false, []⟩ pre).1.length + 2 := by
      omega
    rw [h12]
    rfl
  have hlentot : (pre ++ op :: post).length =
      pre.length + 1 + post.length := by
    simp [List.length_append, List.length_cons]
    omega
  refine ⟨_, _, heq, batchLoop_length gh true (pre ++ op :: post) 1 _,
    batchLoop_index gh true (pre ++ op :: post) 1 _, hdrop, rfl, hexec,
    hsucc, hfailc, hstop, ?_, ?_, hcalls⟩
  · rw [hexec, hsucc, hfailc]
  · rw [hexec]
    show pre.length + 1 ≤ (pre ++ op :: post).length
    omega

/-- Witness for C1: operations [A, B, C] with A succeeding, B failing (method
not on the allow-list) and stopOnError=true: three entries in order, C is the
skip entry, executed=2, succeeded=1, failed=1, stoppedEarly=true, and no
handler is invoked past index 2. -/
theorem batch_stopOnError_skips_witness :
    ∃ o calls,
      batch.execute ghSample
        (mkBatchParams ([opInfo] ++ opUnknown :: [opInfo]) true) =
        (.ok o, calls) ∧
      o.results.length = 3 ∧
      o.results.map (fun e => e.index) = [1, 2, 3] ∧
      o.results.drop 2 = [skipEntry 3] ∧
      o.summary.total = 3 ∧
      o.summary.executed = 2 ∧
      o.summary.succeeded = 1 ∧
      o.summary.failed = 1 ∧
      o.summary.stoppedEarly = true ∧
      ∀ c ∈ calls, c ≤ 2 := by
  obtain ⟨o, calls, h1, h2, h3, h4, h5, h6, h7, h8, h9, h10, h11, h12⟩ :=
    batch_stopOnError_skips ghSample [opInfo] [opInfo] opUnknown
      (by decide)
      (by
        intro j x hx
        have hx2 : x = opInfo := by simpa using hx
        subst hx2
        rfl)
      (by rfl)
  exact ⟨o, calls, h1, h2.trans rfl, h3.trans rfl, h4.trans rfl,
    h5.trans rfl, h6.trans rfl, h7.trans rfl, h8, h9,
    fun c hc => h12 c hc⟩

/-- C10: an operation rejected before handler dispatch is counted as a
failure without its handler being invoked; in the loop such a non-skipped
operation increments executed and failed and leaves the handler trace
unchanged; a skipped operation leaves all counters and the trace untouched;
the loop preserves executed = succeeded + failed from any state satisfying
it, so every successful batch's summary satisfies the invariant. -/
theorem batch_counters (gh0 : String → Option Handler) :
    (∀ (gh : String → Option Handler) (i : Nat) (op : LuaVal),
      preDispatchRejected gh op = true →
      (processOp gh i op).2.1 = false ∧ (processOp gh i op).2.2 = false) ∧
    (∀ (gh : String → Option Handler) (so : Bool) (i : Nat) (st : LoopState)
      (ops : List LuaVal), st.stoppedEarly = true →
      batchLoop gh so i st ops =
        ((List.range' i ops.length).map skipEntry, st)) ∧
    (∀ (gh : String → Option Handler) (so : Bool) (i : Nat) (st : LoopState)
      (op : LuaVal), st.stoppedEarly = false →
      preDispatchRejected gh op = true →
      (batchLoop gh so i st [op]).2 =
        ⟨st.succeeded, st.failed + 1, st.executed + 1, so, st.calls⟩) ∧
    (∀ (gh : String → Option Handler) (so : Bool) (i : Nat) (st : LoopState)
      (ops : List LuaVal), st.executed = st.succeeded + st.failed →
      (batchLoop gh so i st ops).2.executed =
        (batchLoop gh so i st ops).2.succeeded +
          (batchLoop gh so i st ops).2.failed) ∧
    (∀ (params : LuaVal) (o : BatchOutput) (calls : List Nat),
      batch.execute gh0 params = (.ok o, calls) →
      o.summary.executed = o.summary.succeeded + o.summary.failed) := by
  refine ⟨processOp_preDispatch,
    fun gh so i st ops hst => batchLoop_skip_run gh so ops i st hst, ?_,
    fun gh so i st ops hinv => batchLoop_counter_invariant gh so ops i st hinv,
    ?_⟩
  · intro gh so i st op hst hrej
    obtain ⟨hp1, hp2⟩ := processOp_preDispatch gh i op hrej
    rw [batchLoop_snd_act gh so i st op [] hst, batchLoop_nil]
    simp [stepState, hp1, hp2]
  · intro params o calls h
    cases hop : hashGetVal params "operations" with
    | table arr hh =>
      by_cases h0 : arr.length = 0
      · have harr : arr = [] := List.length_eq_zero.mp h0
        rw [harr] at hop
        rw [batch_execute_empty gh0 params hh hop] at h
        simp at h
      · by_cases h50 : arr.length ≤ 50
        · have heq := batch_execute_run gh0 params arr hh hop h0 h50
          rw [heq] at h
          rw [Prod.mk.injEq] at h
          obtain ⟨h1, h2⟩ := h
          have ho := (Except.ok.inj h1).symm
          rw [ho]
          exact batchLoop_counter_invariant gh0 _ arr 1 ⟨0, 0, 0, false, []⟩
            rfl
        · have heq := batch_execute_too_many gh0 params arr hh hop (by omega)
          rw [heq] at h
          simp at h
    | nil =>
      rw [batch_execute_not_table gh0 params (by rw [hop]; rfl)] at h
      simp at h
    | boolean b =>
      rw [batch_execute_not_table gh0 params (by rw [hop]; rfl)] at h
      simp at h
    | num n =>
      rw [batch_execute_not_table gh0 params (by rw [hop]; rfl)] at h
      simp at h
    | str s =>
      rw [batch_execute_not_table gh0 params (by rw [hop]; rfl)] at h
      simp at h

/-- Witness for C10: a one-operation batch whose method is unknown reports
executed=1, failed=1, succeeded=0 with no handler invoked, and a skipped run
leaves a concrete state unchanged. -/
theorem batch_counters_witness :
    ((processOp ghSample 1 opUnknown).2.1 = false ∧
      (processOp ghSample 1 opUnknown).2.2 = false) ∧
    batchLoop ghSample true 3 ⟨1, 1, 2, true, [1]⟩ [opInfo] =
      ([skipEntry 3], ⟨1, 1, 2, true, [1]⟩) ∧
    (batchLoop ghSample false 1 ⟨0, 0, 0, false, []⟩ [opUnknown]).2 =
      ⟨0, 1, 1, false, []⟩ ∧
    (∀ (o : BatchOutput) (calls : List Nat),
      batch.execute ghSample (mkBatchParams [opUnknown] false) =
        (.ok o, calls) →
      o.summary.executed = o.summary.succeeded + o.summary.failed) := by
  obtain ⟨hc1, hc2, hc3, hc4, hc5⟩ := batch_counters ghSample
  refine ⟨hc1 ghSample 1 opUnknown (by rfl), ?_, ?_, ?_⟩
  · have h := hc2 ghSample true 3 ⟨1, 1, 2, true, [1]⟩ [opInfo] rfl
    simpa using h
  · exact hc3 ghSample false 1 ⟨0, 0, 0, false, []⟩ opUnknown rfl (by rfl)
  · intro o calls h
    exact hc5 (mkBatchParams [opUnknown] false) o calls h

lemma reqName_ne_respName (i : Nat) : reqName i ≠ respName i := by
  intro h
  have hlen := congrArg String.length h
  simp only [reqName, respName, String.length_append] at hlen
  have h4 : "req_".length = 4 := rfl
  have h5 : "resp_".length = 5 := rfl
  rw [h4, h5] at hlen
  omega

lemma find?_filter_ne (fs : FS) (name : String) :
    (fs.filter (fun p => p.1 ≠ name)).find? (fun p => p.1 = name) = none := by
  induction fs with
  | nil => rfl
  | cons p fs ih =>
    by_cases h : p.1 = name
    · simp [List.filter_cons, h, ih]
    · simp [List.filter_cons, h, ih]

lemma find?_filter_preserve (fs : FS) (name other : String)
    (h : other ≠ name) :
    (fs.filter (fun p => p.1 ≠ name)).find? (fun p => p.1 = other) =
      fs.find? (fun p => p.1 = other) := by
  induction fs with
  | nil => rfl
  | cons p fs ih =>
    rw [List.filter_cons]
    by_cases hp : p.1 = name
    · have hno : ¬(p.1 = other) := by
        rw [hp]
        exact fun hc => h hc.symm
      rw [if_neg (by simp [hp]), ih,
        List.find?_cons_of_neg _ (by simp [hno])]
    · rw [if_pos (by simp [hp])]
      by_cases ho : p.1 = other
      · rw [List.find?_cons_of_pos _ (by simp [ho]),
          List.find?_cons_of_pos _ (by simp [ho])]
      · rw [List.find?_cons_of_neg _ (by simp [ho]),
          List.find?_cons_of_neg _ (by simp [ho]), ih]

lemma fsRead_fsWrite_self (fs : FS) (name : String) (c : FileContent) :
    fsRead (fsWrite fs name c) name = some c := by
  unfold fsRead fsWrite fsRemove
  rw [List.find?_append, find?_filter_ne]
  simp

lemma fsRead_fsWrite_other (fs : FS) (name other : String) (c : FileContent)
    (h : other ≠ name) :
    fsRead (fsWrite fs name c) other = fsRead fs other := by
  unfold fsRead fsWrite fsRemove
  rw [List.find?_append, find?_filter_preserve fs name other h]
  have hno : ¬(name = other) := fun hc => h hc.symm
  simp [hno]

lemma fsRead_fsRemove_self (fs : FS) (name : String) :
    fsRead (fsRemove fs name) name = none := by
  unfold fsRead fsRemove
  rw [find?_filter_ne]
  rfl

lemma fsRead_fsRemove_other (fs : FS) (name other : String)
    (h : other ≠ name) :
    fsRead (fsRemove fs name) other = fsRead fs other := by
  unfold fsRead fsRemove
  rw [find?_filter_preserve fs name other h]

/-- C2: when a tick processes a request whose handler raises, the loop still
writes the response file with the internal-error envelope (code -32603,
message "Handler error: ..."), still deletes the request file, and carries on
with the remaining requests of the tick with the per-tick counter advanced —
the crash is absorbed inside processRequest, never aborting the loop. -/
theorem poll_handler_crash_resilient
    (decode : FileContent → Option LuaVal) (gh : String → Option Handler)
    (fs : FS) (i : Nat) (rest : List Nat) (processed : Nat)
    (content : FileContent) (req : ParsedRequest) (hnd : Handler)
    (msg : String)
    (hcap : processed < 2)
    (hread : fsRead fs (reqName i) = some content)
    (hparse : protocol.parseRequest decode content = .ok req)
    (hallow : validator.isAllowed req.method = true)
    (hvalid : (validator.validateParams req.method
      (luaOr req.params emptyTable)).1 = true)
    (hgh : gh req.method = some hnd)
    (hthrow : hnd (luaOr req.params emptyTable) = .thrown msg) :
    server.pollProcess decode gh fs (i :: rest) processed =
      server.pollProcess decode gh
        (fsRemove (fsWrite fs (respName i)
          (.enc (protocol.createError req.id (-32603)
            ("Handler error: " ++ msg)))) (reqName i)) rest (processed + 1) ∧
    fsRead (fsRemove (fsWrite fs (respName i)
        (.enc (protocol.createError req.id (-32603)
          ("Handler error: " ++ msg)))) (reqName i)) (respName i) =
      some (.enc (protocol.createError req.id (-32603)
        ("Handler error: " ++ msg))) ∧
    fsRead (fsRemove (fsWrite fs (respName i)
        (.enc (protocol.createError req.id (-32603)
          ("Handler error: " ++ msg)))) (reqName i)) (reqName i) = none := by
  have hresp : server.processRequest decode gh content =
      protocol.createError req.id (-32603) ("Handler error: " ++ msg) := by
    unfold server.processRequest
    rw [hparse]
    simp [server.dispatch, hallow, hvalid, hgh, hthrow]
  refine ⟨?_, ?_, ?_⟩
  · simp only [server.pollProcess]
    rw [if_neg (by omega)]
    simp only [hread, hresp]
  · rw [fsRead_fsRemove_other _ _ _ (reqName_ne_respName i).symm,
      fsRead_fsWrite_self]
  · exact fsRead_fsRemove_self _ _

/-- Witness for C2: a single request file req_5.json whose decoded request
reaches a handler that raises: the tick writes resp_5.json with the
internal-error envelope and deletes req_5.json. -/
theorem poll_handler_crash_resilient_witness :
    server.pollProcess decodeSample ghThrow
        [(reqName 5, FileContent.raw "REQ5")] [5] 0 =
      server.pollProcess decodeSample ghThrow
        (fsRemove (fsWrite [(reqName 5, FileContent.raw "REQ5")] (respName 5)
          (.enc (protocol.createError (.num 5) (-32603)
            ("Handler error: " ++ "boom")))) (reqName 5)) [] 1 ∧
    fsRead (fsRemove (fsWrite [(reqName 5, FileContent.raw "REQ5")]
        (respName 5) (.enc (protocol.createError (.num 5) (-32603)
          ("Handler error: " ++ "boom")))) (reqName 5)) (respName 5) =
      some (.enc (protocol.createError (.num 5) (-32603)
        ("Handler error: " ++ "boom"))) ∧
    fsRead (fsRemove (fsWrite [(reqName 5, FileContent.raw "REQ5")]
        (respName 5) (.enc (protocol.createError (.num 5) (-32603)
          ("Handler error: " ++ "boom")))) (reqName 5)) (reqName 5) =
      none :=
  poll_handler_crash_resilient decodeSample ghThrow
    [(reqName 5, FileContent.raw "REQ5")] 5 [] 0 (.raw "REQ5")
    ⟨.num 5, "document.getInfo", .nil⟩ throwHandler "boom"
    (by omega) rfl rfl rfl rfl rfl rfl

/-- C7 counterexample: a request file req_5.json whose body fails to decode
is answered in resp_5.json by an envelope whose id is nil (JSON null), not 5:
the envelope id does not round-trip when the request body fails to decode —
only the response file name carries the id. -/
theorem response_id_nil_on_parse_error :
    fsRead (server.poll decodeNone ghSample true [(reqName 5, .raw "bad")])
        (respName 5) =
      some (.enc ⟨.nil, .err (-32700) "Parse error: malformed JSON" .nil⟩) ∧
    LuaVal.nil ≠ LuaVal.num 5 := by
  constructor
  · rfl
  · exact fun h => LuaVal.noConfusion h

/-- C7 (amended): the envelope id round-trips exactly for every request whose
body decodes and passes the envelope checks — every dispatch outcome echoes
the request's id — while a request whose body fails to decode is answered
with a nil (null) envelope id. -/
theorem response_id_roundtrip
    (decode : FileContent → Option LuaVal) (gh : String → Option Handler)
    (c : FileContent) :
    (∀ req : ParsedRequest, protocol.parseRequest decode c = .ok req →
      (server.processRequest decode gh c).id = req.id) ∧
    (∀ e : String, protocol.parseRequest decode c = .error e →
      (server.processRequest decode gh c).id = .nil) := by
  have hdispatch : ∀ req : ParsedRequest, (server.dispatch gh req).id = req.id := by
    intro req
    unfold server.dispatch
    (repeat' split) <;> rfl
  constructor
  · intro req hparse
    unfold server.processRequest
    rw [hparse]
    exact hdispatch req
  · intro e hparse
    unfold server.processRequest
    rw [hparse]
    rfl

/-- Witness for C7's amended statement: a well-formed request with id 5 is
answered with envelope id 5; an undecodable body is answered with a nil id. -/
theorem response_id_roundtrip_witness :
    (server.processRequest decodeSample ghSample (.raw "REQ5")).id =
      LuaVal.num 5 ∧
    (server.processRequest decodeNone ghSample (.raw "bad")).id =
      LuaVal.nil := by
  refine ⟨?_, ?_⟩
  · exact (response_id_roundtrip decodeSample ghSample (.raw "REQ5")).1
      ⟨.num 5, "document.getInfo", .nil⟩ rfl
  · exact (response_id_roundtrip decodeNone ghSample (.raw "bad")).2
      "Parse error: malformed JSON" rfl

lemma findAux_gap (ex : Nat → Bool) :
    ∀ (g misses id fuel : Nat), 1 ≤ g → misses + g = 101 →
      (∀ j, id ≤ j → j < id + g → ex j = false) → g ≤ fuel →
      findAux ex id misses fuel = [] := by
  intro g
  induction g with
  | zero =>
    intro misses id fuel hg1
    omega
  | succ g ih =>
    intro misses id fuel _ hsum hmiss hfuel
    cases fuel with
    | zero => rfl
    | succ f =>
      have hex : ex id = false := hmiss id (Nat.le_refl id) (by omega)
      simp only [findAux, hex, Bool.false_eq_true, if_false]
      by_cases hm : misses + 1 > 100
      · rw [if_pos hm]
      · rw [if_neg hm]
        exact ih (misses + 1) (id + 1) f (by omega) (by omega)
          (fun j hj1 hj2 => hmiss j (by omega) (by omega)) (by omega)

lemma findFiles_all_miss (ex : Nat → Bool)
    (hex : ∀ id, id ≤ 101 → 1 ≤ id → ex id = false) : findFiles ex = [] := by
  unfold findFiles
  exact findAux_gap ex 101 0 1 10000 (by omega) (by omega)
    (fun j hj1 hj2 => hex j (by omega) hj1) (by omega)

/-- C9: the request-file scan probes ids upward from 1 and stops for good
after more than 100 consecutive missing ids, so whenever no request file
exists with id 1..101 the scan returns the empty list — and a tick then
changes nothing, so a pending request file whose id lies beyond the gap is
never discovered or processed. -/
theorem findFiles_gap_never_discovered :
    (∀ ex : Nat → Bool, (∀ id, id ≤ 101 → 1 ≤ id → ex id = false) →
      findFiles ex = []) ∧
    (∀ (decode : FileContent → Option LuaVal) (gh : String → Option Handler)
      (fs : FS),
      (∀ id, id ≤ 101 → 1 ≤ id → fsExists fs (reqName id) = false) →
      server.poll decode gh true fs = fs) := by
  constructor
  · exact findFiles_all_miss
  · intro decode gh fs hfs
    unfold server.poll
    rw [if_pos rfl, findFiles_all_miss _ hfs]
    rfl

/-- Witness for C9: with a lone req_150.json in the directory, the scan finds
nothing and the tick leaves the directory untouched — the pending request is
never processed. -/
theorem findFiles_gap_never_discovered_witness :
    findFiles (fun id =>
      fsExists [(reqName 150, FileContent.raw "x")] (reqName id)) = [] ∧
    server.poll decodeNone ghSample true [(reqName 150, FileContent.raw "x")] =
      [(reqName 150, FileContent.raw "x")] := by
  obtain ⟨h1, h2⟩ := findFiles_gap_never_discovered
  exact ⟨h1 _ (by decide), h2 decodeNone ghSample _ (by decide)⟩

lemma sendLoop_timeout (jsParse : FileContent → Option LuaVal)
    (timeout start : Nat) (time : Nat → Nat) (method : String) (id : Nat)
    (fs : FS) (hresp : fsRead fs (respName id) = none) :
    ∀ (fuel k : Nat), (∃ j, j < fuel ∧ time (k + j) - start > timeout) →
      sendLoop jsParse timeout start time method id fs k fuel =
        some (fsRemove fs (reqName id),
          .timedOutErr (timeoutMessage method id timeout))
  | 0, k, hex => by
    obtain ⟨j, hj, _⟩ := hex
    omega
  | fuel + 1, k, hex => by
    simp only [sendLoop, hresp]
    by_cases ht : time k - start > timeout
    · rw [if_pos ht]
    · rw [if_neg ht]
      obtain ⟨j, hj, hjt⟩ := hex
      have hj0 : j ≠ 0 := by
        intro h0
        subst h0
        simp only [Nat.add_zero] at hjt
        exact ht hjt
      refine sendLoop_timeout jsParse timeout start time method id fs hresp
        fuel (k + 1) ⟨j - 1, by omega, ?_⟩
      have heq : k + 1 + (j - 1) = k + j := by omega
      rw [heq]
      exact hjt

/-- C4: a sendRequest call for which no matching response file exists fails
with the timeout error (naming the method, id and the per-call or default
timeout) as soon as some poll iteration observes an elapsed time beyond the
timeout, and the request file it wrote no longer exists in the resulting
directory state — it is deleted before the timeout error is raised. -/
theorem sendRequest_timeout_cleanup
    (jsParse : FileContent → Option LuaVal) (requestTimeout : Nat)
    (timeoutOpt : Option Nat) (time : Nat → Nat) (start : Nat)
    (method : String) (params : LuaVal) (id : Nat) (fs : FS) (fuel n : Nat)
    (hnoresp : fsRead fs (respName id) = none)
    (htime : time n - start > timeoutOpt.getD requestTimeout)
    (hfuel : n < fuel) :
    MohoClient.sendRequest jsParse true requestTimeout timeoutOpt time start
        method params id fs fuel =
      some (fsRemove (fsWrite fs (reqName id) (.encReq id method params))
          (reqName id),
        .timedOutErr (timeoutMessage method id
          (timeoutOpt.getD requestTimeout))) ∧
    fsRead (fsRemove (fsWrite fs (reqName id) (.encReq id method params))
        (reqName id)) (reqName id) = none := by
  constructor
  · unfold MohoClient.sendRequest
    rw [if_neg (by simp)]
    refine sendLoop_timeout jsParse (timeoutOpt.getD requestTimeout) start
      time method id _ ?_ fuel 0 ⟨n, hfuel, by simpa using htime⟩
    rw [fsRead_fsWrite_other fs (reqName id) (respName id) _
      (reqName_ne_respName id).symm]
    exact hnoresp
  · exact fsRead_fsRemove_self _ _

/-- Witness for C4: with an empty directory, no response ever appears; with a
10ms poll clock and a 50ms default timeout the call times out at the 6th poll
and the request file req_1.json is gone afterwards. -/
theorem sendRequest_timeout_cleanup_witness :
    MohoClient.sendRequest decodeNone true 50 none (fun k => k * 10) 0
        "document.getInfo" emptyTable 1 [] 10 =
      some (fsRemove (fsWrite [] (reqName 1)
          (.encReq 1 "document.getInfo" emptyTable)) (reqName 1),
        .timedOutErr (timeoutMessage "document.getInfo" 1 50)) ∧
    fsRead (fsRemove (fsWrite [] (reqName 1)
        (.encReq 1 "document.getInfo" emptyTable)) (reqName 1)) (reqName 1) =
      none := by
  have h := sendRequest_timeout_cleanup decodeNone 50 none (fun k => k * 10) 0
    "document.getInfo" emptyTable 1 [] 10 6 rfl (by decide) (by decide)
  simpa using h

/-- C6: decoding rejects every malformed payload with a protocol-level error
and never returns a partial result — for the server's request parser: the
empty string, a payload the JSON decoder cannot parse, a decoded value that
is not a table, and an object missing the jsonrpc version tag; and for the
bridge's response parser: an empty (after trimming) payload, an unparseable
payload, a decoded non-object, and an object missing the version tag. -/
theorem decode_rejects_malformed :
    (∀ decode : FileContent → Option LuaVal,
      protocol.parseRequest decode (.raw "") =
        .error "Invalid input: expected non-empty JSON string") ∧
    (∀ (decode : FileContent → Option LuaVal) (c : FileContent),
      c.isEmptyStr = false → decode c = none →
      protocol.parseRequest decode c = .error "Parse error: malformed JSON") ∧
    (∀ (decode : FileContent → Option LuaVal) (c : FileContent) (v : LuaVal),
      c.isEmptyStr = false → decode c = some v → isLuaTable v = false →
      protocol.parseRequest decode c = .error "Parse error: malformed JSON") ∧
    (∀ (decode : FileContent → Option LuaVal) (c : FileContent)
      (arr : List LuaVal) (h : List (String × LuaVal)),
      c.isEmptyStr = false → decode c = some (.table arr h) →
      hashGet h "jsonrpc" = .nil →
      protocol.parseRequest decode c =
        .error ("Invalid request: missing or incorrect jsonrpc version " ++
          "(must be \"2.0\")")) ∧
    (∀ (jsParse : FileContent → Option LuaVal) (s : String), strTrim s = "" →
      parseResponse jsParse (.raw s) =
        .error "Empty response from MOHO server") ∧
    (∀ (jsParse : FileContent → Option LuaVal) (c : FileContent),
      (c.trimmed).isEmptyStr = false → jsParse c.trimmed = none →
      parseResponse jsParse c =
        .error ("Invalid JSON from MOHO server: " ++ c.trimmed.textPreview)) ∧
    (∀ (jsParse : FileContent → Option LuaVal) (c : FileContent) (v : LuaVal),
      (c.trimmed).isEmptyStr = false → jsParse c.trimmed = some v →
      isJsObject v = false →
      parseResponse jsParse c =
        .error "MOHO server response is not a JSON object") ∧
    (∀ (jsParse : FileContent → Option LuaVal) (c : FileContent)
      (arr : List LuaVal) (h : List (String × LuaVal)),
      (c.trimmed).isEmptyStr = false →
      jsParse c.trimmed = some (.table arr h) → hashGet h "jsonrpc" = .nil →
      parseResponse jsParse c =
        .error ("Unexpected jsonrpc version: " ++ "missing")) := by
  refine ⟨?_, ?_, ?_, ?_, ?_, ?_, ?_, ?_⟩
  · intro decode
    rfl
  · intro decode c hne hdec
    unfold protocol.parseRequest
    rw [if_neg (by simp [hne]), hdec]
  · intro decode c v hne hdec hv
    unfold protocol.parseRequest
    rw [if_neg (by simp [hne]), hdec]
    cases v with
    | table arr h => simp [isLuaTable] at hv
    | nil => rfl
    | boolean b => rfl
    | num n => rfl
    | str s => rfl
  · intro decode c arr h hne hdec hjs
    unfold protocol.parseRequest
    rw [if_neg (by simp [hne]), hdec]
    simp only [hjs]
    rfl
  · intro jsParse s htrim
    unfold parseResponse
    rw [if_pos (by simp [FileContent.trimmed, FileContent.isEmptyStr, htrim])]
  · intro jsParse c hne hdec
    unfold parseResponse
    rw [if_neg (by simp [hne]), hdec]
  · intro jsParse c v hne hdec hv
    unfold parseResponse
    rw [if_neg (by simp [hne]), hdec]
    simp only [hv, Bool.not_false, if_true]
  · intro jsParse c arr h hne hdec hjs
    unfold parseResponse
    rw [if_neg (by simp [hne]), hdec]
    simp only [isJsObject, hashGetVal, hjs, Bool.not_true]
    rfl

/-- Witness for C6: concrete malformed payloads on both sides each produce
the corresponding protocol-level error. -/
theorem decode_rejects_malformed_witness :
    protocol.parseRequest decodeNone (.raw "") =
      .error "Invalid input: expected non-empty JSON string" ∧
    protocol.parseRequest decodeNone (.raw "nope") =
      .error "Parse error: malformed JSON" ∧
    protocol.parseRequest decodeStr (.raw "x") =
      .error "Parse error: malformed JSON" ∧
    protocol.parseRequest decodeObj (.raw "x") =
      .error ("Invalid request: missing or incorrect jsonrpc version " ++
        "(must be \"2.0\")") ∧
    parseResponse decodeNone (.raw "") =
      .error "Empty response from MOHO server" ∧
    parseResponse decodeNone (.raw "garbage") =
      .error ("Invalid JSON from MOHO server: " ++
        (FileContent.raw "garbage").trimmed.textPreview) ∧
    parseResponse decodeStr (.raw "x") =
      .error "MOHO server response is not a JSON object" ∧
    parseResponse decodeObj (.raw "x") =
      .error ("Unexpected jsonrpc version: " ++ "missing") := by
  obtain ⟨h1, h2, h3, h4, h5, h6, h7, h8⟩ := decode_rejects_malformed
  exact ⟨h1 decodeNone,
    h2 decodeNone (.raw "nope") rfl rfl,
    h3 decodeStr (.raw "x") (.str "x") rfl rfl rfl,
    h4 decodeObj (.raw "x") [] [] rfl rfl rfl,
    h5 decodeNone "" rfl,
    h6 decodeNone (.raw "garbage") rfl rfl,
    h7 decodeStr (.raw "x") (.str "x") rfl rfl rfl,
    h8 decodeObj (.raw "x") [] [] rfl rfl rfl⟩

end MohoMCP
